import Mathlib

/-!
Shallow embedding of the e-commerce recommendation engine
(apps/interactions, apps/recommendations) and proofs about it.

Conventions of the embedding:
* Monetary values, scores and weights are modelled as exact rationals (ℚ);
  the Python source uses floats/Decimals, the arithmetic formulas are the same.
* Timestamps are integers (seconds); `timezone.now()` becomes an explicit
  `now : Int` argument.
* A Django queryset for one tenant (store) is modelled as a Lean list of rows
  already restricted to that store; `filter(store=...)` is therefore implicit
  in the choice of the input list.
* Database-side `order_by` on a non-unique sort key leaves the relative order
  of ties unspecified; we determinise it as a stable insertion sort over the
  grouping order (first appearance in the input list).
-/

namespace ECRec

/-- Row of the `interactions` table (apps/interactions/models.py, class
`Interaction`), restricted to the columns the verified computations read:
`user`, `product`, `interaction_type`, `value`, `weight`, `created_at`. -/
structure Interaction where
  user_id : Option String := none
  product : Option Nat := none
  interaction_type : String := "view"
  value : ℚ := 1
  weight : ℚ := 1
  created_at : Int := 0
deriving DecidableEq

/-- The `weight_map` dictionary inside `Interaction.save`
(apps/interactions/models.py lines 185-195). -/
def weight_map (t : String) : Option ℚ :=
  if t = "view" then some (1/10)
  else if t = "click" then some (3/10)
  else if t = "detail_view" then some (1/2)
  else if t = "cart_add" then some 2
  else if t = "wishlist_add" then some (3/2)
  else if t = "purchase" then some 5
  else if t = "review" then some 3
  else if t = "like" then some 1
  else if t = "dislike" then some (1/2)
  else none

/-- `Interaction.save` (apps/interactions/models.py lines 177-198), the part
that acts on the row itself: `self.weight = weight_map.get(self.interaction_type, 1.0)`.
(The product-context backfill and the session/user metric refreshes touch other
tables and are outside the row being saved.) -/
def Interaction.save (i : Interaction) : Interaction :=
  { i with weight := (weight_map i.interaction_type).getD 1 }

/-- Row of the `recommendations` table (apps/recommendations/models.py, class
`Recommendation`), restricted to the columns the verified computations read. -/
structure Recommendation where
  rid : Nat := 0
  store : Nat := 0
  user_id : Option String := none
  session_id : String := ""
  product : Nat := 0
  algorithm : String := "hybrid"
  score : ℚ := 0
  rank : Nat := 0
  explanation : String := ""
  context : List (String × String) := []
  shown_count : Nat := 0
  click_count : Nat := 0
  purchase_count : Nat := 0
  created_at : Int := 0
  expires_at : Int := 0
deriving DecidableEq

/-- `Recommendation.click_through_rate` (apps/recommendations/models.py
lines 63-68): `0.0` when `shown_count == 0`, else
`(click_count / shown_count) * 100`. -/
def Recommendation.click_through_rate (r : Recommendation) : ℚ :=
  if r.shown_count = 0 then 0
  else ((r.click_count : ℚ) / (r.shown_count : ℚ)) * 100

/-- `Recommendation.conversion_rate` (apps/recommendations/models.py
lines 70-75). -/
def Recommendation.conversion_rate (r : Recommendation) : ℚ :=
  if r.shown_count = 0 then 0
  else ((r.purchase_count : ℚ) / (r.shown_count : ℚ)) * 100

/-- The unique key of a `Recommendation` row:
`unique_together = [store, user, session_id, product, algorithm]`
(apps/recommendations/models.py line 56). -/
structure RecKey where
  store : Nat
  user_id : Option String
  session_id : String
  product : Nat
  algorithm : String
deriving DecidableEq

/-- Key of a stored row. -/
def Recommendation.key (r : Recommendation) : RecKey :=
  ⟨r.store, r.user_id, r.session_id, r.product, r.algorithm⟩

/-- Python `x or d` for an optional string: `None` and `""` are falsy. -/
def pyOrStr (s : Option String) (d : String) : String :=
  match s with
  | none => d
  | some v => if v = "" then d else v

/-- 24 hours in seconds: `timedelta(hours=24)` added to `timezone.now()`. -/
def hours24 : Int := 86400

/-- The arguments of one stored-recommendation upsert, as passed to
`Recommendation.objects.get_or_create` in `RecommendationService.get_recommendations`
(apps/recommendations/services.py lines 322-348). -/
structure UpsertArgs where
  store : Nat
  user_id : Option String := none
  session_id : Option String := none
  product : Nat
  algorithm : Option String := none
  score : ℚ := 0
  rank : Nat := 1
  explanation : String := ""
  context : Option (List (String × String)) := none
deriving DecidableEq

/-- The key the service upserts under: `session_id=session_id or ''` and
`algorithm=algorithm or 'hybrid'` (services.py lines 326-330). -/
def UpsertArgs.key (a : UpsertArgs) : RecKey :=
  ⟨a.store, a.user_id, pyOrStr a.session_id "", a.product, pyOrStr a.algorithm "hybrid"⟩

/-- The update branch of the upsert (services.py lines 340-347): overwrite
`score`, `rank`, `explanation`, `context`, `expires_at := now + 24h`; all other
columns (in particular the three counters) are left as they were. -/
def overwriteRec (a : UpsertArgs) (now : Int) (r : Recommendation) : Recommendation :=
  { r with score := a.score, rank := a.rank, explanation := a.explanation,
           context := a.context.getD [], expires_at := now + hours24 }

/-- The create branch of the upsert (`get_or_create` `defaults`, services.py
lines 331-337): counters take the model defaults `0`. `newId` stands for the
database-assigned primary key. -/
def freshRec (a : UpsertArgs) (newId : Nat) (now : Int) : Recommendation :=
  { rid := newId, store := a.store, user_id := a.user_id,
    session_id := pyOrStr a.session_id "", product := a.product,
    algorithm := pyOrStr a.algorithm "hybrid",
    score := a.score, rank := a.rank, explanation := a.explanation,
    context := a.context.getD [],
    shown_count := 0, click_count := 0, purchase_count := 0,
    created_at := now, expires_at := now + hours24 }

/-- Apply `f` to the first row matching key `k` (the row `get_or_create`
returns), leaving the rest of the table unchanged. -/
def updateFirst (k : RecKey) (f : Recommendation → Recommendation) :
    List Recommendation → List Recommendation
  | [] => []
  | r :: rest => if r.key = k then f r :: rest else r :: updateFirst k f rest

/-- One upsert of `RecommendationService.get_recommendations`
(services.py lines 325-347): `get_or_create` on the key, then on an existing
row overwrite the ranking fields and save. -/
def upsertRecommendation (db : List Recommendation) (a : UpsertArgs) (newId : Nat)
    (now : Int) : List Recommendation :=
  if db.any (fun r => r.key = a.key) then updateFirst a.key (overwriteRec a now) db
  else db ++ [freshRec a newId now]

/-- Row of `user_recommendation_profiles` (apps/recommendations/models.py,
class `UserRecommendationProfile`), restricted to the columns the feedback
loop touches. -/
structure UserRecommendationProfile where
  store : Nat := 0
  user_id : String := ""
  total_recommendations_shown : Nat := 0
  total_recommendations_clicked : Nat := 0
  total_recommendations_purchased : Nat := 0
  overall_ctr : ℚ := 0
  overall_conversion_rate : ℚ := 0
  last_recommendation_at : Option Int := none
deriving DecidableEq

/-- The stored state the feedback loop reads and writes: the recommendations
table and the user recommendation profiles table. -/
structure EngineState where
  recs : List Recommendation
  profiles : List UserRecommendationProfile
deriving DecidableEq

/-- `Recommendation.increment_shown` (models.py lines 77-80). -/
def Recommendation.increment_shown (r : Recommendation) : Recommendation :=
  { r with shown_count := r.shown_count + 1 }

/-- `Recommendation.increment_click` (models.py lines 82-85). -/
def Recommendation.increment_click (r : Recommendation) : Recommendation :=
  { r with click_count := r.click_count + 1 }

/-- `user.recommendations`: the recommendation rows of one (store, user). -/
def userRecs (recs : List Recommendation) (store : Nat) (u : String) :
    List Recommendation :=
  recs.filter (fun r => r.store = store ∧ r.user_id = some u)

/-- `RecommendationService._update_user_profile` (services.py lines 399-421)
together with `UserRecommendationProfile.update_performance_metrics`
(models.py lines 263-268): `get_or_create` the profile, recompute the three
totals wholesale from the user's recommendations, set
`last_recommendation_at`, and derive CTR/conversion; `update_performance_metrics`
only saves when `total_recommendations_shown > 0`, so with zero shown total the
stored row keeps its previous (or default) values. -/
def updateUserProfile (profiles : List UserRecommendationProfile)
    (recs : List Recommendation) (store : Nat) (u : String) (now : Int) :
    List UserRecommendationProfile :=
  let ps :=
    if profiles.any (fun p => p.store = store ∧ p.user_id = u) then profiles
    else profiles ++ [{ store := store, user_id := u }]
  let shown : Nat := ((userRecs recs store u).map (·.shown_count)).sum
  let clicked : Nat := ((userRecs recs store u).map (·.click_count)).sum
  let purchased : Nat := ((userRecs recs store u).map (·.purchase_count)).sum
  if 0 < shown then
    ps.map (fun p =>
      if p.store = store ∧ p.user_id = u then
        { p with total_recommendations_shown := shown,
                 total_recommendations_clicked := clicked,
                 total_recommendations_purchased := purchased,
                 last_recommendation_at := some now,
                 overall_ctr := (clicked : ℚ) / (shown : ℚ) * 100,
                 overall_conversion_rate := (purchased : ℚ) / (shown : ℚ) * 100 }
      else p)
  else ps

/-- `RecommendationService.record_impression` (services.py lines 373-384):
look the recommendation up by id; on `DoesNotExist` do nothing; otherwise
increment `shown_count` and, when the recommendation has a user, refresh that
user's profile. -/
def record_impression (s : EngineState) (rid : Nat) (now : Int) : EngineState :=
  match s.recs.find? (fun r => r.rid = rid) with
  | none => s
  | some r =>
    let recs1 := s.recs.map (fun x => if x.rid = rid then x.increment_shown else x)
    match r.user_id with
    | none => { s with recs := recs1 }
    | some u => { recs := recs1, profiles := updateUserProfile s.profiles recs1 r.store u now }

/-- Distinct values of a list in first-appearance order: the determinisation
of the order a SQL `GROUP BY` presents its groups in (see the header note). -/
def dedupFirst {α : Type} [DecidableEq α] : List α → List α
  | [] => []
  | a :: l => a :: dedupFirst (l.filter (fun x => x ≠ a))
termination_by l => l.length
decreasing_by simpa using Nat.lt_succ_of_le (List.length_filter_le _ _)

/-- The window filter of `calculate_trending_products`
(apps/recommendations/tasks.py lines 77-80):
`created_at__gte=now - time_delta`, `product__isnull=False`. -/
def windowFilter (l : List Interaction) (now delta : Int) : List Interaction :=
  l.filter (fun i => now - delta ≤ i.created_at ∧ i.product ≠ none)

/-- The distinct products of a list of interactions (`values('product')`
grouping), in first-appearance order. -/
def productsOf (l : List Interaction) : List Nat :=
  dedupFirst (l.filterMap (·.product))

/-- `interaction_count=Count('id')` for one product group. -/
def interactionCount (l : List Interaction) (p : Nat) : Nat :=
  (l.filter (fun i => i.product = some p)).length

/-- `purchase_count=Count('id', filter=Q(interaction_type='purchase'))`. -/
def purchaseCount (l : List Interaction) (p : Nat) : Nat :=
  (l.filter (fun i => i.product = some p ∧ i.interaction_type = "purchase")).length

/-- `velocity=Count('id', filter=Q(created_at__gte=now - time_delta / 2))`:
interactions of the group in the most recent half of the window. -/
def velocityCount (l : List Interaction) (p : Nat) (now delta : Int) : Nat :=
  (l.filter (fun i => i.product = some p ∧ now - delta / 2 ≤ i.created_at)).length

/-- One group row of the `trending_data` queryset (tasks.py lines 77-85). -/
structure TrendStats where
  product : Nat
  interaction_count : Nat
  purchase_count : Nat
  velocity_count : Nat
deriving DecidableEq

/-- The annotation of one product group of the window (tasks.py lines 81-84). -/
def statOf (l : List Interaction) (now delta : Int) (p : Nat) : TrendStats :=
  { product := p,
    interaction_count := interactionCount (windowFilter l now delta) p,
    purchase_count := purchaseCount (windowFilter l now delta) p,
    velocity_count := velocityCount (windowFilter l now delta) p now delta }

/-- The grouped annotation of `calculate_trending_products` before ordering:
one stats row per distinct product of the filtered window. -/
def trendingStats (l : List Interaction) (now delta : Int) : List TrendStats :=
  (productsOf (windowFilter l now delta)).map (statOf l now delta)

/-- Row of `trending_products` (apps/recommendations/models.py, class
`TrendingProduct`), restricted to the computed columns. -/
structure TrendingEntry where
  product : Nat
  score : ℚ
  velocity : ℚ
  rank : Nat
  window : String
deriving DecidableEq

/-- `calculate_trending_products` for one store and one window
(tasks.py lines 73-110): group the window's interactions by product,
`order_by('-interaction_count')[:50]` (ties determinised as a stable sort over
grouping order), then for the idx-th row store
`score = interaction_count + purchase_count*5 + velocity_count*2`,
`velocity = velocity_count / max(interaction_count, 1)` and `rank = idx + 1`.
(The `Product.DoesNotExist: continue` guard never fires because every non-null
`Interaction.product` is a foreign key into the products table.) -/
def trendingSorted (l : List Interaction) (now delta : Int) : List TrendStats :=
  (List.insertionSort
      (fun a b : TrendStats => b.interaction_count ≤ a.interaction_count)
      (trendingStats l now delta)).take 50

/-- The per-row store of the loop body (tasks.py lines 88-110): the idx-th
kept group becomes a `TrendingEntry` with the derived score, velocity and
`rank = idx + 1`. -/
def calculate_trending (l : List Interaction) (now delta : Int) (window : String) :
    List TrendingEntry :=
  (trendingSorted l now delta).enum.map (fun ia =>
    { product := ia.2.product,
      score := ((ia.2.interaction_count : ℚ) + (ia.2.purchase_count : ℚ) * 5 +
        (ia.2.velocity_count : ℚ) * 2),
      velocity := (ia.2.velocity_count : ℚ) /
        ((max ia.2.interaction_count 1 : Nat) : ℚ),
      rank := ia.1 + 1,
      window := window })

/-- One candidate produced by a generator engine: the dicts built by
`PopularityBasedEngine` / `CollaborativeFilteringEngine` / `ContentBasedEngine`
(services.py lines 49-54, 98-103, 157-162, 193-198). -/
structure Candidate where
  product : Nat
  score : ℚ
  rank : Nat := 1
  explanation : String := ""
deriving DecidableEq

/-- One entry of the `all_recommendations` dict of
`HybridRecommendationEngine.get_recommendations` (services.py lines 226-236):
per product a score per contributing engine and the collected explanations. -/
structure CandAccum where
  product : Nat
  scores : List (String × ℚ)
  explanations : List String
deriving DecidableEq

/-- Python dict assignment `scores[name] = v`: replace an existing key in
place, else append. -/
def setScore (scores : List (String × ℚ)) (name : String) (v : ℚ) :
    List (String × ℚ) :=
  if scores.any (fun e => e.1 = name) then
    scores.map (fun e => if e.1 = name then (name, v) else e)
  else scores ++ [(name, v)]

/-- The loop body of the accumulation (services.py lines 226-236): create the
product's entry if absent, then record the engine's score and explanation. -/
def addCandidate (acc : List CandAccum) (name : String) (c : Candidate) :
    List CandAccum :=
  if acc.any (fun a => a.product = c.product) then
    acc.map (fun a =>
      if a.product = c.product then
        { a with scores := setScore a.scores name c.score,
                 explanations := a.explanations ++ [c.explanation] }
      else a)
  else acc ++ [{ product := c.product, scores := [(name, c.score)],
                 explanations := [c.explanation] }]

/-- The full accumulation over the engines' outputs, in engine iteration
order (services.py lines 214-240). -/
def accumulate (outputs : List (String × List Candidate)) : List CandAccum :=
  outputs.foldl
    (fun acc nr => nr.2.foldl (fun acc2 c => addCandidate acc2 nr.1 c) acc) []

/-- The `weights` dict of the combiner with its `.get(engine_name, 0.1)`
default (services.py lines 246-256). -/
def combinerWeight (name : String) : ℚ :=
  if name = "collaborative" then 2/5
  else if name = "content" then 7/20
  else if name = "popularity" then 1/4
  else 1/10

/-- Sum of the contributing engines' weights for one product. -/
def sumWeights (scores : List (String × ℚ)) : ℚ :=
  (scores.map (fun e => combinerWeight e.1)).sum

/-- Weight-scaled sum of the contributing engines' scores for one product. -/
def weightedSum (scores : List (String × ℚ)) : ℚ :=
  (scores.map (fun e => e.2 * combinerWeight e.1)).sum

/-- The combination loop (services.py lines 252-261): accumulate
`score * weight` and `weight`, then divide by the total weight when it is
positive. -/
def combinedScore (scores : List (String × ℚ)) : ℚ :=
  let cw := scores.foldl
    (fun p e => (p.1 + e.2 * combinerWeight e.1, p.2 + combinerWeight e.1))
    ((0 : ℚ), (0 : ℚ))
  if 0 < cw.2 then cw.1 / cw.2 else cw.1

/-- `HybridRecommendationEngine._combine_explanations`
(services.py lines 279-289): dedup preserving first occurrence
(`dict.fromkeys`), generic fallback when empty, else the first explanation or
the first two joined with `" and "`, the second lowercased. -/
def combineExplanations (es : List String) : String :=
  match dedupFirst es with
  | [] => "Recommended for you"
  | [e] => e
  | e1 :: e2 :: _ => e1 ++ " and " ++ e2.toLower

/-- One row of the combiner's final output. -/
structure HybridRec where
  product : Nat
  score : ℚ
  rank : Nat
  explanation : String
deriving DecidableEq

/-- The ranking tail of `HybridRecommendationEngine.get_recommendations`
(services.py lines 242-277): combine each accumulated product's scores, sort
by combined score descending (Python `list.sort` is stable; ties keep
accumulation order), assign `rank = idx + 1` to the first `max_results` rows
and return them. -/
def hybridCombine (accums : List CandAccum) (max_results : Nat) :
    List HybridRec :=
  let final := accums.map (fun a => (a, combinedScore a.scores))
  let sorted := List.insertionSort (fun x y : CandAccum × ℚ => y.2 ≤ x.2) final
  (sorted.take max_results).enum.map (fun ia =>
    { product := ia.2.1.product, score := ia.2.2, rank := ia.1 + 1,
      explanation := combineExplanations ia.2.1.explanations })

/-- `HybridRecommendationEngine.get_recommendations` as a whole, from the
engines' outputs (a failing engine is simply absent from `outputs`,
services.py lines 238-240). -/
def hybrid_get_recommendations (outputs : List (String × List Candidate))
    (max_results : Nat) : List HybridRec :=
  hybridCombine (accumulate outputs) max_results

/-- Concrete engine outputs used to instantiate the combiner: popularity
proposes product 7, collaborative proposes product 8. -/
def demoEngineOutputs : List (String × List Candidate) :=
  [("popularity",
    [{ product := 7, score := 1/2, rank := 1, explanation := "Popular" }]),
   ("collaborative",
    [{ product := 8, score := 9/10, rank := 1, explanation := "Similar users" }])]

/-- Row of the `products` table (apps/products/models.py), restricted to the
columns the verified computations read. -/
structure Product where
  pid : Nat
  category : String := ""
  price : Option ℚ := none
deriving DecidableEq

/-- The category a `product__category` join reads for a product id. -/
def categoryOf (products : List Product) (p : Nat) : String :=
  ((products.find? (fun q => q.pid = p)).map (fun q => q.category)).getD ""

/-- The distinct `product__category` values of a user's interactions with a
non-null product, in grouping (first-appearance) order
(apps/interactions/tasks.py lines 50-55). -/
def categoriesOf (inters : List Interaction) (products : List Product) :
    List String :=
  dedupFirst ((inters.filter (fun i => i.product ≠ none)).map
    (fun i => categoryOf products (i.product.getD 0)))

/-- `total_weight=Sum('weight')` for one category group. -/
def categoryWeight (inters : List Interaction) (products : List Product)
    (cat : String) : ℚ :=
  (((inters.filter (fun i => i.product ≠ none)).filter
      (fun i => categoryOf products (i.product.getD 0) = cat)).map
    (fun i => i.weight)).sum

/-- The `preferred_categories` dict of `update_user_behavior_profile`
(tasks.py lines 50-61): category groups with their summed weights,
`order_by('-total_weight')` (ties determinised as a stable sort over grouping
order) and the first 10 kept, in that order. -/
def preferredCategories (inters : List Interaction) (products : List Product) :
    List (String × ℚ) :=
  (List.insertionSort (fun a b : String × ℚ => b.2 ≤ a.2)
    ((categoriesOf inters products).map
      (fun c => (c, categoryWeight inters products c)))).take 10

/-- The claim's selection rule, formalised from the spec's words (spec §3/§4.1:
top 10 by summed weight, "ties broken by category name ascending") — to be
compared against `preferredCategories`, which is read off the code. -/
def specPreferredCategories (inters : List Interaction)
    (products : List Product) : List (String × ℚ) :=
  (List.insertionSort
    (fun a b : String × ℚ => b.2 < a.2 ∨ (a.2 = b.2 ∧ a.1 ≤ b.1))
    ((categoriesOf inters products).map
      (fun c => (c, categoryWeight inters products c)))).take 10

/-- The `purchase_frequency` decision chain (tasks.py lines 78-83). -/
def purchaseFrequencyLabel (tp : Nat) : String :=
  if 10 < tp then "frequent"
  else if 3 < tp then "occasional"
  else "rare"

/-- The `browsing_pattern` decision chain (tasks.py lines 86-91), with the
float literals `0.8` and `0.1` as exact rationals. -/
def browsingPatternLabel (ti tv tp : Nat) : String :=
  if (ti : ℚ) * (4/5) < (tv : ℚ) then "explorer"
  else if (1/10 : ℚ) < (tp : ℚ) / ((max tv 1 : Nat) : ℚ) then "focused"
  else "browser"

/-- Row of `user_behavior_profiles` (apps/interactions/models.py, class
`UserBehaviorProfile`), restricted to the columns the rebuild writes from the
interactions table (the session-derived columns read the external session
store and are outside the verified computation). -/
structure UserBehaviorProfile where
  total_interactions : Nat := 0
  total_views : Nat := 0
  total_purchases : Nat := 0
  total_cart_adds : Nat := 0
  preferred_categories : List (String × ℚ) := []
  price_preference : Option (ℚ × ℚ × ℚ) := none
  browsing_pattern : String := ""
  purchase_frequency : String := ""
  avg_order_value : ℚ := 0
  last_active_date : Option Int := none
deriving DecidableEq

/-- `update_user_behavior_profile` (apps/interactions/tasks.py lines 7-100)
for one user, from that user's interaction rows: recompute the counts, the
preferred categories, the price stats over positive-value purchases, the two
labels and the average order value; fields whose `if` guard fails keep their
previous (get_or_create default) value. -/
def update_user_behavior_profile (inters : List Interaction)
    (products : List Product) (prev : UserBehaviorProfile) :
    UserBehaviorProfile :=
  let ti := inters.length
  let tv := (inters.filter (fun i => i.interaction_type = "view")).length
  let tp := (inters.filter (fun i => i.interaction_type = "purchase")).length
  let tc := (inters.filter (fun i => i.interaction_type = "cart_add")).length
  let pvals := (inters.filter
    (fun i => i.interaction_type = "purchase" ∧ 0 < i.value)).map
      (fun i => i.value)
  { prev with
    total_interactions := ti
    total_views := tv
    total_purchases := tp
    total_cart_adds := tc
    last_active_date :=
      match (inters.map (fun i => i.created_at)).max? with
      | none => prev.last_active_date
      | some t => some t
    preferred_categories := preferredCategories inters products
    price_preference :=
      match pvals with
      | [] => prev.price_preference
      | v :: vs =>
        some (vs.foldl min v, vs.foldl max v,
          (v :: vs).sum / (((v :: vs).length : Nat) : ℚ))
    purchase_frequency := purchaseFrequencyLabel tp
    browsing_pattern := browsingPatternLabel ti tv tp
    avg_order_value :=
      if 0 < tp then pvals.sum / (tp : ℚ) else prev.avg_order_value }

/-- The row of the `users` table the collaborative engine resolves a
`user_id` to (apps/users/models.py). -/
structure UserRec where
  uid : Nat
  user_id : String
deriving DecidableEq

/-- `CollaborativeFilteringEngine.get_recommendations`
(services.py lines 63-107): empty without a `user_id`, for an unknown user,
or for a user with no interactions; otherwise rank neighbour users by shared
interacted products (top 10), pool their interactions on products the target
user has not touched, group by product, score `count + 3·purchases`, keep the
top `max_results` by score and emit candidates with
`score = min(count/10, 1)`; a null-product group is skipped when its product
lookup fails (`Product.DoesNotExist: continue`), consuming its `idx`. -/
def collaborative_get_recommendations (users : List UserRec)
    (inters : List Interaction) (user_id : Option String) (max_results : Nat) :
    List Candidate :=
  match user_id with
  | none => []
  | some uid =>
    match users.find? (fun u => u.user_id = uid) with
    | none => []
    | some user =>
      let user_products : List (Option Nat) :=
        (inters.filter (fun i => i.user_id = some uid)).map (fun i => i.product)
      if user_products = [] then []
      else
        let shared : UserRec → Nat := fun v =>
          (inters.filter
            (fun i => i.user_id = some v.user_id ∧ i.product ∈ user_products)).length
        let neighbours := (List.insertionSort
          (fun a b : UserRec => shared b ≤ shared a)
          (users.filter (fun v => v.uid ≠ user.uid ∧ 0 < shared v))).take 10
        let pool := inters.filter (fun i =>
          (neighbours.any (fun v => i.user_id = some v.user_id)) ∧
            ¬ (i.product ∈ user_products))
        let gscore : Option Nat → Nat := fun p =>
          (pool.filter (fun i => i.product = p)).length +
            3 * (pool.filter
              (fun i => i.product = p ∧ i.interaction_type = "purchase")).length
        let groups := (List.insertionSort
          (fun a b : Option Nat => gscore b ≤ gscore a)
          (dedupFirst (pool.map (fun i => i.product)))).take max_results
        groups.enum.filterMap (fun ia =>
          match ia.2 with
          | none => none
          | some p => some
            { product := p, score := min ((gscore (some p) : ℚ) / 10) 1,
              rank := ia.1 + 1,
              explanation := "Users with similar interests also liked this" })

/-- The scenario input of C7: user U with `[view,P1],[view,P1],[purchase,P1,$50]`
(weights as `Interaction.save` stores them). -/
def demoProfileInput : List Interaction :=
  [{ user_id := some "U", product := some 1, interaction_type := "view",
     value := 1, weight := 1/10, created_at := 1 },
   { user_id := some "U", product := some 1, interaction_type := "view",
     value := 1, weight := 1/10, created_at := 2 },
   { user_id := some "U", product := some 1, interaction_type := "purchase",
     value := 50, weight := 5, created_at := 3 }]

/-- Catalog for `demoProfileInput`. -/
def demoProducts : List Product := [{ pid := 1, category := "electronics" }]

/-- Catalog of 11 products in 11 distinct categories; the first-appearing
category name `"z"` sorts last alphabetically. -/
def tieProducts : List Product :=
  [{ pid := 1, category := "z" }, { pid := 2, category := "a" },
   { pid := 3, category := "b" }, { pid := 4, category := "c" },
   { pid := 5, category := "d" }, { pid := 6, category := "e" },
   { pid := 7, category := "f" }, { pid := 8, category := "g" },
   { pid := 9, category := "h" }, { pid := 10, category := "i" },
   { pid := 11, category := "j" }]

/-- One weight-1 interaction per product of `tieProducts`, in catalog order:
all 11 categories tie at summed weight 1. -/
def tieInput : List Interaction :=
  [{ user_id := some "U", product := some 1, interaction_type := "share",
     weight := 1, created_at := 1 },
   { user_id := some "U", product := some 2, interaction_type := "share",
     weight := 1, created_at := 2 },
   { user_id := some "U", product := some 3, interaction_type := "share",
     weight := 1, created_at := 3 },
   { user_id := some "U", product := some 4, interaction_type := "share",
     weight := 1, created_at := 4 },
   { user_id := some "U", product := some 5, interaction_type := "share",
     weight := 1, created_at := 5 },
   { user_id := some "U", product := some 6, interaction_type := "share",
     weight := 1, created_at := 6 },
   { user_id := some "U", product := some 7, interaction_type := "share",
     weight := 1, created_at := 7 },
   { user_id := some "U", product := some 8, interaction_type := "share",
     weight := 1, created_at := 8 },
   { user_id := some "U", product := some 9, interaction_type := "share",
     weight := 1, created_at := 9 },
   { user_id := some "U", product := some 10, interaction_type := "share",
     weight := 1, created_at := 10 },
   { user_id := some "U", product := some 11, interaction_type := "share",
     weight := 1, created_at := 11 }]

/-- A concrete tenant interaction log used to instantiate the trending
computation: product 1 has two old views, product 2 one recent purchase. -/
def demoTrendInput : List Interaction :=
  [{ product := some 1, interaction_type := "view", created_at := 10 },
   { product := some 1, interaction_type := "view", created_at := 20 },
   { product := some 2, interaction_type := "purchase", created_at := 60 }]

/-- `RecommendationService.record_click` (services.py lines 386-397). -/
def record_click (s : EngineState) (rid : Nat) (now : Int) : EngineState :=
  match s.recs.find? (fun r => r.rid = rid) with
  | none => s
  | some r =>
    let recs1 := s.recs.map (fun x => if x.rid = rid then x.increment_click else x)
    match r.user_id with
    | none => { s with recs := recs1 }
    | some u => { recs := recs1, profiles := updateUserProfile s.profiles recs1 r.store u now }

end ECRec

namespace ECRec

/-- C4: the engagement weight stored by `Interaction.save` is a pure function
of the interaction type and matches the fixed table (purchase=5.0, cart_add=2.0,
review=3.0, wishlist_add=1.5, detail_view=0.5, click=0.3, like=1.0, dislike=0.5,
view=0.1, default 1.0); it is recomputed on every save. -/
theorem save_weight_pure_and_table (i j : Interaction) :
    (i.interaction_type = j.interaction_type →
      (Interaction.save i).weight = (Interaction.save j).weight) ∧
    (i.interaction_type = "purchase" → (Interaction.save i).weight = 5) ∧
    (i.interaction_type = "cart_add" → (Interaction.save i).weight = 2) ∧
    (i.interaction_type = "review" → (Interaction.save i).weight = 3) ∧
    (i.interaction_type = "wishlist_add" → (Interaction.save i).weight = 3/2) ∧
    (i.interaction_type = "detail_view" → (Interaction.save i).weight = 1/2) ∧
    (i.interaction_type = "click" → (Interaction.save i).weight = 3/10) ∧
    (i.interaction_type = "like" → (Interaction.save i).weight = 1) ∧
    (i.interaction_type = "dislike" → (Interaction.save i).weight = 1/2) ∧
    (i.interaction_type = "view" → (Interaction.save i).weight = 1/10) ∧
    (weight_map i.interaction_type = none → (Interaction.save i).weight = 1) := by
  refine ⟨fun h => by simp [Interaction.save, h],
    ?_, ?_, ?_, ?_, ?_, ?_, ?_, ?_, ?_, fun h => by simp [Interaction.save, h]⟩ <;>
    intro h <;> simp [Interaction.save, weight_map, h]

/-- Witness for C4 at a concrete purchase interaction and a second interaction
of the same type. -/
theorem save_weight_pure_and_table_witness :
    (Interaction.save { interaction_type := "purchase" }).weight = 5 :=
  (save_weight_pure_and_table { interaction_type := "purchase" }
    { interaction_type := "purchase", value := 2 }).2.1 rfl

/-- C6 counterexample: for a recommendation shown 3 times with 1 click the code
returns a percentage, `100/3`, not the plain ratio `click_count/shown_count = 1/3`
the claim states (and `conversion_rate` likewise is `100 ×` the ratio). -/
theorem ctr_is_percentage_counterexample :
    Recommendation.click_through_rate
        { shown_count := 3, click_count := 1 } = 100/3 ∧
      ((100 : ℚ)/3 ≠ ((1 : ℚ))/3) := by
  constructor
  · simp [Recommendation.click_through_rate]
    norm_num
  · norm_num

/-- C6 amended: `click_through_rate` and `conversion_rate` are the percentages
`100·click_count/shown_count` and `100·purchase_count/shown_count`, and both
are 0 whenever `shown_count = 0` — the read never divides by zero. -/
theorem ctr_conversion_amended (r : Recommendation) :
    (r.shown_count = 0 →
      r.click_through_rate = 0 ∧ r.conversion_rate = 0) ∧
    (0 < r.shown_count →
      r.click_through_rate * r.shown_count = 100 * r.click_count ∧
      r.conversion_rate * r.shown_count = 100 * r.purchase_count) := by
  constructor
  · intro h
    simp [Recommendation.click_through_rate, Recommendation.conversion_rate, h]
  · intro h
    have hne : (r.shown_count : ℚ) ≠ 0 := by
      exact_mod_cast Nat.pos_iff_ne_zero.mp h
    constructor <;>
      · simp [Recommendation.click_through_rate, Recommendation.conversion_rate,
          Nat.pos_iff_ne_zero.mp h]
        field_simp
        ring

theorem key_overwriteRec (a : UpsertArgs) (now : Int) (r : Recommendation) :
    (overwriteRec a now r).key = r.key := rfl

theorem key_freshRec (a : UpsertArgs) (newId : Nat) (now : Int) :
    (freshRec a newId now).key = a.key := rfl

theorem mem_updateFirst_of_key_ne (a : UpsertArgs) (now : Int)
    (x : Recommendation) (hx : x.key ≠ a.key) :
    ∀ db : List Recommendation,
      (x ∈ updateFirst a.key (overwriteRec a now) db ↔ x ∈ db)
  | [] => Iff.rfl
  | r :: rest => by
    by_cases h : r.key = a.key
    · simp only [updateFirst, if_pos h, List.mem_cons]
      constructor
      · rintro (rfl | hm)
        · exact absurd ((key_overwriteRec a now r).trans h) hx
        · exact Or.inr hm
      · rintro (rfl | hm)
        · exact absurd h hx
        · exact Or.inr hm
    · simp only [updateFirst, if_neg h, List.mem_cons]
      exact or_congr Iff.rfl (mem_updateFirst_of_key_ne a now x hx rest)

theorem filter_key_updateFirst (a : UpsertArgs) (now : Int) :
    ∀ db : List Recommendation, (db.map Recommendation.key).Nodup →
      (updateFirst a.key (overwriteRec a now) db).filter (fun r => r.key = a.key) =
        (db.find? (fun r => r.key = a.key)).elim [] (fun r => [overwriteRec a now r])
  | [], _ => rfl
  | r :: rest, hu => by
    have hu2 : (Recommendation.key r :: rest.map Recommendation.key).Nodup := by
      simpa using hu
    have hu' : (rest.map Recommendation.key).Nodup := (List.nodup_cons.mp hu2).2
    by_cases h : r.key = a.key
    · have hk : a.key ∉ rest.map Recommendation.key := by
        have := (List.nodup_cons.mp hu2).1
        simpa [h] using this
      have hrest : rest.filter (fun r => r.key = a.key) = [] := by
        refine List.filter_eq_nil_iff.mpr ?_
        intro x hx
        simp only [decide_eq_true_eq]
        intro hxk
        exact hk (hxk ▸ List.mem_map_of_mem Recommendation.key hx)
      simp [updateFirst, if_pos h, List.find?_cons, h, List.filter_cons,
        key_overwriteRec, hrest]
    · simp [updateFirst, if_neg h, List.filter_cons, List.find?_cons, h,
        filter_key_updateFirst a now rest hu']

theorem find_eq_head_filter {α : Type} (p : α → Bool) :
    ∀ l : List α, l.find? p = (l.filter p).head?
  | [] => rfl
  | a :: l => by
    by_cases h : p a = true
    · rw [List.find?_cons_of_pos _ h, List.filter_cons_of_pos h, List.head?_cons]
    · rw [List.find?_cons_of_neg _ h, List.filter_cons_of_neg h,
        find_eq_head_filter p l]

theorem filter_key_upsert (db : List Recommendation) (a : UpsertArgs)
    (newId : Nat) (now : Int) (hu : (db.map Recommendation.key).Nodup) :
    (upsertRecommendation db a newId now).filter (fun r => r.key = a.key) =
      (db.find? (fun r => r.key = a.key)).elim [freshRec a newId now]
        (fun r => [overwriteRec a now r]) := by
  cases hfind : db.find? (fun r => r.key = a.key) with
  | none =>
    have hno : ∀ x ∈ db, ¬ x.key = a.key := by
      intro x hx
      have := List.find?_eq_none.mp hfind x hx
      simpa using this
    have hany : db.any (fun r => r.key = a.key) = false := by
      refine List.any_eq_false.mpr ?_
      intro x hx
      simpa using hno x hx
    have hdbf : db.filter (fun r => r.key = a.key) = [] :=
      List.filter_eq_nil_iff.mpr (by intro x hx; simpa using hno x hx)
    simp [upsertRecommendation, hany, List.filter_append, hdbf, key_freshRec]
  | some r =>
    have hmem : r ∈ db := List.mem_of_find?_eq_some hfind
    have hany : db.any (fun r => r.key = a.key) = true :=
      List.any_eq_true.mpr ⟨r, hmem, by simpa using List.find?_some hfind⟩
    simpa [upsertRecommendation, hany, hfind] using
      filter_key_updateFirst a now db hu

theorem map_key_updateFirst (a : UpsertArgs) (now : Int) :
    ∀ db : List Recommendation,
      (updateFirst a.key (overwriteRec a now) db).map Recommendation.key =
        db.map Recommendation.key
  | [] => rfl
  | r :: rest => by
    by_cases h : r.key = a.key <;>
      simp [updateFirst, h, key_overwriteRec, map_key_updateFirst a now rest]

theorem nodup_key_upsert (db : List Recommendation) (a : UpsertArgs)
    (newId : Nat) (now : Int) (hu : (db.map Recommendation.key).Nodup) :
    ((upsertRecommendation db a newId now).map Recommendation.key).Nodup := by
  by_cases hany : db.any (fun r => r.key = a.key) = true
  · simpa [upsertRecommendation, hany, map_key_updateFirst] using hu
  · have hno : ∀ x ∈ db, ¬ x.key = a.key := by
      intro x hx
      have := List.any_eq_false.mp (Bool.eq_false_iff.mpr hany) x hx
      simpa using this
    have : a.key ∉ db.map Recommendation.key := by
      intro hk
      obtain ⟨x, hx, hxe⟩ := List.mem_map.mp hk
      exact hno x hx hxe
    simp [upsertRecommendation, hany, List.nodup_append, key_freshRec, hu, this]

/-- C1: semantics of one recommendation upsert, under the table's uniqueness
invariant on `(store, user, session_id, product, algorithm)` keys:
rows with other keys are untouched; an existing row under the key keeps its
`rid`, `created_at` and its three counters while `score`, `rank`,
`explanation`, `context` and `expires_at` (reset to now+24h) are overwritten;
with no existing row a fresh row is appended with all three counters 0; and
upserting twice with identical inputs leaves exactly one row under the key,
its counters those from before the first call (0 for a fresh row). -/
theorem upsert_overwrite_insert_idempotent (db : List Recommendation)
    (a : UpsertArgs) (newId newId2 : Nat) (now now2 : Int)
    (hu : (db.map Recommendation.key).Nodup) :
    (∀ x : Recommendation, x.key ≠ a.key →
      (x ∈ upsertRecommendation db a newId now ↔ x ∈ db)) ∧
    (∀ x ∈ db, x.key = a.key →
      ∃ y ∈ upsertRecommendation db a newId now, y.key = a.key ∧
        y.score = a.score ∧ y.rank = a.rank ∧ y.explanation = a.explanation ∧
        y.context = a.context.getD [] ∧ y.expires_at = now + hours24 ∧
        y.shown_count = x.shown_count ∧ y.click_count = x.click_count ∧
        y.purchase_count = x.purchase_count ∧ y.created_at = x.created_at ∧
        y.rid = x.rid) ∧
    ((∀ x ∈ db, x.key ≠ a.key) →
      upsertRecommendation db a newId now = db ++ [freshRec a newId now] ∧
      (freshRec a newId now).shown_count = 0 ∧
      (freshRec a newId now).click_count = 0 ∧
      (freshRec a newId now).purchase_count = 0) ∧
    (((upsertRecommendation (upsertRecommendation db a newId now) a newId2 now2).filter
        (fun r => r.key = a.key)).length = 1 ∧
      ∀ y ∈ upsertRecommendation (upsertRecommendation db a newId now) a newId2 now2,
        y.key = a.key →
          (y.shown_count, y.click_count, y.purchase_count) =
            ((db.find? (fun r => r.key = a.key)).map
              (fun r => (r.shown_count, r.click_count, r.purchase_count))).getD
              (0, 0, 0)) := by
  have hu1 : ((upsertRecommendation db a newId now).map Recommendation.key).Nodup :=
    nodup_key_upsert db a newId now hu
  have hfi1 : (upsertRecommendation db a newId now).find? (fun r => r.key = a.key) =
      some ((db.find? (fun r => r.key = a.key)).elim (freshRec a newId now)
        (overwriteRec a now)) := by
    rw [find_eq_head_filter, filter_key_upsert db a newId now hu]
    cases db.find? (fun r => r.key = a.key) <;> rfl
  have hfilter2 : ((upsertRecommendation (upsertRecommendation db a newId now) a
        newId2 now2).filter (fun r => r.key = a.key)) =
      [overwriteRec a now2 ((db.find? (fun r => r.key = a.key)).elim
        (freshRec a newId now) (overwriteRec a now))] := by
    rw [filter_key_upsert (upsertRecommendation db a newId now) a newId2 now2 hu1,
      hfi1]
    rfl
  refine ⟨?_, ?_, ?_, ?_⟩
  · intro x hx
    by_cases hany : db.any (fun r => r.key = a.key) = true
    · rw [upsertRecommendation, if_pos hany]
      exact mem_updateFirst_of_key_ne a now x hx db
    · rw [upsertRecommendation, if_neg hany]
      simp only [List.mem_append, List.mem_singleton]
      constructor
      · rintro (hm | rfl)
        · exact hm
        · exact absurd (key_freshRec a newId now) hx
      · exact Or.inl
  · intro x hx hxk
    have hfind : db.find? (fun r => r.key = a.key) = some x := by
      cases hfd : db.find? (fun r => r.key = a.key) with
      | none =>
        have := List.find?_eq_none.mp hfd x hx
        simp [hxk] at this
      | some y =>
        have hy : y ∈ db := List.mem_of_find?_eq_some hfd
        have hyk : y.key = a.key := by simpa using List.find?_some hfd
        have : y = x :=
          List.inj_on_of_nodup_map hu hy hx (hyk.trans hxk.symm)
        rw [this]
    refine ⟨overwriteRec a now x, ?_, ?_, rfl, rfl, rfl, rfl, rfl, rfl, rfl, rfl,
      rfl, rfl⟩
    · have : overwriteRec a now x ∈
          (upsertRecommendation db a newId now).filter (fun r => r.key = a.key) := by
        rw [filter_key_upsert db a newId now hu, hfind]
        simp
      exact List.mem_of_mem_filter this
    · exact (key_overwriteRec a now x).trans hxk
  · intro hno
    have hany : db.any (fun r => r.key = a.key) = false := by
      refine List.any_eq_false.mpr ?_
      intro x hx
      simpa using hno x hx
    exact ⟨by rw [upsertRecommendation, if_neg (by simp [hany])], rfl, rfl, rfl⟩
  · refine ⟨by rw [hfilter2]; rfl, ?_⟩
    intro y hy hyk
    have hmemf : y ∈ (upsertRecommendation (upsertRecommendation db a newId now) a
        newId2 now2).filter (fun r => r.key = a.key) :=
      List.mem_filter.mpr ⟨hy, by simpa using hyk⟩
    rw [hfilter2] at hmemf
    have hyeq := List.mem_singleton.mp hmemf
    subst hyeq
    cases db.find? (fun r => r.key = a.key) <;> rfl

/-- Witness for C1 on the empty table: the first upsert inserts a row with
all counters 0, and after a second identical upsert exactly one row with the
key remains, counters still 0. -/
theorem upsert_overwrite_insert_idempotent_witness :
    (upsertRecommendation [] { store := 1, product := 7, score := 1/2 } 5 100 =
      [freshRec { store := 1, product := 7, score := 1/2 } 5 100] ∧
      (freshRec { store := 1, product := 7, score := 1/2 } 5 100).shown_count = 0 ∧
      (freshRec { store := 1, product := 7, score := 1/2 } 5 100).click_count = 0 ∧
      (freshRec { store := 1, product := 7, score := 1/2 } 5 100).purchase_count = 0) ∧
    ((upsertRecommendation
        (upsertRecommendation [] { store := 1, product := 7, score := 1/2 } 5 100)
        { store := 1, product := 7, score := 1/2 } 6 200).filter
      (fun r => r.key = UpsertArgs.key { store := 1, product := 7, score := 1/2 })).length
      = 1 := by
  have h := upsert_overwrite_insert_idempotent []
    { store := 1, product := 7, score := 1/2 } 5 6 100 200 (by simp)
  exact ⟨by simpa using h.2.2.1 (by simp), h.2.2.2.1⟩

/-- C10: `record_impression` and `record_click` with a recommendation id that
matches no stored row are silent no-ops — the whole engine state (all
recommendation counters and all user profiles) is returned unchanged. -/
theorem record_missing_id_noop (s : EngineState) (rid : Nat) (now : Int)
    (h : ∀ r ∈ s.recs, r.rid ≠ rid) :
    record_impression s rid now = s ∧ record_click s rid now = s := by
  have hf : s.recs.find? (fun r => r.rid = rid) = none := by
    refine List.find?_eq_none.mpr ?_
    intro x hx
    simpa using h x hx
  constructor <;> simp [record_impression, record_click, hf]

/-- Witness for C10: a state holding one recommendation with id 1 and one
profile, probed with the unknown id 2. -/
theorem record_missing_id_noop_witness :
    record_impression
        ⟨[{ rid := 1, shown_count := 3 }], [{ user_id := "u" }]⟩ 2 50 =
      ⟨[{ rid := 1, shown_count := 3 }], [{ user_id := "u" }]⟩ ∧
    record_click
        ⟨[{ rid := 1, shown_count := 3 }], [{ user_id := "u" }]⟩ 2 50 =
      ⟨[{ rid := 1, shown_count := 3 }], [{ user_id := "u" }]⟩ :=
  record_missing_id_noop
    ⟨[{ rid := 1, shown_count := 3 }], [{ user_id := "u" }]⟩ 2 50 (by decide)

theorem mem_dedupFirst {α : Type} [DecidableEq α] (x : α) :
    ∀ l : List α, (x ∈ dedupFirst l ↔ x ∈ l)
  | [] => by simp [dedupFirst]
  | a :: l => by
    by_cases hxa : x = a
    · subst hxa
      simp [dedupFirst]
    · have ih := mem_dedupFirst x (l.filter (fun y => y ≠ a))
      simp only [dedupFirst, List.mem_cons, List.mem_filter,
        decide_eq_true_eq] at ih ⊢
      constructor
      · rintro (rfl | h)
        · exact Or.inl rfl
        · exact Or.inr (ih.mp h).1
      · rintro (rfl | h)
        · exact absurd rfl hxa
        · exact Or.inr (ih.mpr ⟨h, hxa⟩)
termination_by l => l.length
decreasing_by simpa using Nat.lt_succ_of_le (List.length_filter_le _ _)

theorem pos_interactionCount_of_mem_productsOf (l : List Interaction) (p : Nat)
    (hp : p ∈ productsOf l) : 0 < interactionCount l p := by
  have hp' : p ∈ l.filterMap (·.product) := (mem_dedupFirst p _).mp hp
  obtain ⟨i, hi, hip⟩ := List.mem_filterMap.mp hp'
  have hmem : i ∈ l.filter (fun i => i.product = some p) :=
    List.mem_filter.mpr ⟨hi, by simpa using hip⟩
  have := List.length_pos.mpr (List.ne_nil_of_mem hmem)
  simpa [interactionCount] using this

theorem trendingStats_fields (l : List Interaction) (now delta : Int)
    (s : TrendStats) (hs : s ∈ trendingStats l now delta) :
    s.interaction_count = interactionCount (windowFilter l now delta) s.product ∧
    s.purchase_count = purchaseCount (windowFilter l now delta) s.product ∧
    s.velocity_count = velocityCount (windowFilter l now delta) s.product now delta ∧
    0 < s.interaction_count ∧
    s.product ∈ productsOf (windowFilter l now delta) := by
  obtain ⟨p, hp, rfl⟩ := List.mem_map.mp hs
  exact ⟨rfl, rfl, rfl,
    pos_interactionCount_of_mem_productsOf _ p hp, hp⟩

theorem mem_trendingSorted (l : List Interaction) (now delta : Int)
    (s : TrendStats) (hs : s ∈ trendingSorted l now delta) :
    s ∈ trendingStats l now delta :=
  (List.mem_insertionSort _).mp ((List.take_sublist 50 _).subset hs)

theorem mem_calculate_trending (l : List Interaction) (now delta : Int)
    (w : String) (row : TrendingEntry)
    (hrow : row ∈ calculate_trending l now delta w) :
    ∃ s ∈ trendingStats l now delta,
      row.product = s.product ∧
      row.score = (s.interaction_count : ℚ) + (s.purchase_count : ℚ) * 5 +
        (s.velocity_count : ℚ) * 2 ∧
      row.velocity = (s.velocity_count : ℚ) /
        ((max s.interaction_count 1 : Nat) : ℚ) := by
  simp only [calculate_trending, List.mem_map] at hrow
  obtain ⟨ia, hia, rfl⟩ := hrow
  have hdata : ia.2 ∈ trendingSorted l now delta := by
    have := List.mem_map_of_mem Prod.snd hia
    rwa [List.enum_map_snd] at this
  exact ⟨ia.2, mem_trendingSorted l now delta ia.2 hdata, rfl, rfl, rfl⟩

/-- C5: for every row produced by a trending run,
`score = interaction_count + 5·purchase_count + 2·velocity_count` and
`velocity = velocity_count / interaction_count`, where the counts are over the
window-filtered interactions; the total count of a listed product is positive,
so the `max(total, 1)` guard never changes the divisor and no division by zero
occurs. -/
theorem trending_score_velocity (l : List Interaction) (now delta : Int)
    (w : String) (row : TrendingEntry)
    (hrow : row ∈ calculate_trending l now delta w) :
    row.score = (interactionCount (windowFilter l now delta) row.product : ℚ) +
        5 * (purchaseCount (windowFilter l now delta) row.product : ℚ) +
        2 * (velocityCount (windowFilter l now delta) row.product now delta : ℚ) ∧
    0 < interactionCount (windowFilter l now delta) row.product ∧
    row.velocity =
      (velocityCount (windowFilter l now delta) row.product now delta : ℚ) /
        (interactionCount (windowFilter l now delta) row.product : ℚ) := by
  obtain ⟨s, hs, hprod, hscore, hvel⟩ := mem_calculate_trending l now delta w row hrow
  obtain ⟨hic, hpc, hvc, hpos, -⟩ := trendingStats_fields l now delta s hs
  have hmax : max s.interaction_count 1 = s.interaction_count :=
    Nat.max_eq_left hpos
  refine ⟨?_, ?_, ?_⟩
  · rw [hprod, ← hic, ← hpc, ← hvc, hscore]; ring
  · rw [hprod, ← hic]; exact hpos
  · rw [hprod, ← hic, ← hvc, hvel, hmax]

/-- Concrete evaluation of a trending run on `demoTrendInput`. -/
theorem calculate_trending_demo_eval :
    calculate_trending demoTrendInput 100 100 "24h" =
      [{ product := 1, score := 2, velocity := 0, rank := 1, window := "24h" },
       { product := 2, score := 8, velocity := 1, rank := 2, window := "24h" }] := by
  simp [calculate_trending, trendingSorted, trendingStats, statOf, windowFilter,
    productsOf, dedupFirst, interactionCount, purchaseCount, velocityCount,
    demoTrendInput, List.insertionSort, List.orderedInsert, List.take,
    List.enum, List.enumFrom]
  norm_num

/-- Witness for C5 on `demoTrendInput`: the rank-2 row (product 2) stores
score `1 + 5·1 + 2·1 = 8` and its window interaction count is positive. -/
theorem trending_score_velocity_witness :
    ({ product := 2, score := 8, velocity := 1, rank := 2, window := "24h" }
        : TrendingEntry).score =
      (interactionCount (windowFilter demoTrendInput 100 100) 2 : ℚ) +
        5 * (purchaseCount (windowFilter demoTrendInput 100 100) 2 : ℚ) +
        2 * (velocityCount (windowFilter demoTrendInput 100 100) 2 100 100 : ℚ) ∧
    0 < interactionCount (windowFilter demoTrendInput 100 100) 2 := by
  have hmem :
      ({ product := 2, score := 8, velocity := 1, rank := 2, window := "24h" }
        : TrendingEntry) ∈ calculate_trending demoTrendInput 100 100 "24h" := by
    rw [calculate_trending_demo_eval]
    exact List.mem_cons_of_mem _ (List.mem_cons_self _ _)
  have h := trending_score_velocity demoTrendInput 100 100 "24h"
    { product := 2, score := 8, velocity := 1, rank := 2, window := "24h" } hmem
  exact ⟨h.1, h.2.1⟩

/-- C2 counterexample: on `demoTrendInput` the run stores rank 1 for product 1
with score 2 and rank 2 for product 2 with score 8 — the code orders and
truncates by raw `interaction_count`, not by the stored score, so ranks are
not descending by score (and the kept set is not the top 50 by score when
more than 50 products compete). -/
theorem trending_rank_not_by_score_counterexample :
    ∃ r1 ∈ calculate_trending demoTrendInput 100 100 "24h",
      ∃ r2 ∈ calculate_trending demoTrendInput 100 100 "24h",
        r1.rank = 1 ∧ r2.rank = 2 ∧ r1.score < r2.score := by
  rw [calculate_trending_demo_eval]
  refine ⟨_, List.mem_cons_self _ _, _,
    List.mem_cons_of_mem _ (List.mem_cons_self _ _), rfl, rfl, by norm_num⟩

/-- C2 amended: the stored trending entries of a run are the top 50 products
by window interaction count; ranks are dense (`rank = position + 1`, 1..N) and
non-increasing in interaction count; every window product left out has an
interaction count no larger than any kept product's. -/
theorem trending_rank_dense_top50 (l : List Interaction) (now delta : Int)
    (w : String) :
    (∀ i (h : i < (calculate_trending l now delta w).length),
      ((calculate_trending l now delta w).get ⟨i, h⟩).rank = i + 1) ∧
    (calculate_trending l now delta w).length =
      min 50 (trendingStats l now delta).length ∧
    (calculate_trending l now delta w).Pairwise (fun x y =>
      interactionCount (windowFilter l now delta) y.product ≤
        interactionCount (windowFilter l now delta) x.product) ∧
    (∀ p ∈ productsOf (windowFilter l now delta),
      p ∉ (calculate_trending l now delta w).map TrendingEntry.product →
      ∀ row ∈ calculate_trending l now delta w,
        interactionCount (windowFilter l now delta) p ≤
          interactionCount (windowFilter l now delta) row.product) := by
  haveI hTot : IsTotal TrendStats
      (fun a b => b.interaction_count ≤ a.interaction_count) :=
    ⟨fun a b => le_total b.interaction_count a.interaction_count⟩
  haveI hTrans : IsTrans TrendStats
      (fun a b => b.interaction_count ≤ a.interaction_count) :=
    ⟨fun _ _ _ hab hbc => le_trans hbc hab⟩
  have hsorted : (List.insertionSort
      (fun a b : TrendStats => b.interaction_count ≤ a.interaction_count)
      (trendingStats l now delta)).Pairwise
        (fun a b => b.interaction_count ≤ a.interaction_count) :=
    List.sorted_insertionSort _ _
  have hdata : (trendingSorted l now delta).Pairwise
      (fun a b => b.interaction_count ≤ a.interaction_count) :=
    List.Pairwise.sublist (List.take_sublist 50 _) hsorted
  refine ⟨?_, ?_, ?_, ?_⟩
  · intro i h
    have h' : i < (trendingSorted l now delta).enum.length := by
      simpa [calculate_trending] using h
    simp [calculate_trending, List.getElem_enum]
  · simp [calculate_trending, trendingSorted, List.enum_length,
      List.length_take, List.length_insertionSort]
  · have henum : (trendingSorted l now delta).enum.Pairwise
        (fun x y : Nat × TrendStats =>
          y.2.interaction_count ≤ x.2.interaction_count) := by
      have hmapped : ((trendingSorted l now delta).enum.map Prod.snd).Pairwise
          (fun a b : TrendStats => b.interaction_count ≤ a.interaction_count) := by
        rw [List.enum_map_snd]
        exact hdata
      exact List.pairwise_map.mp hmapped
    simp only [calculate_trending]
    refine List.pairwise_map.mpr (List.Pairwise.imp_of_mem ?_ henum)
    intro x y hx hy hr
    have hxs : x.2 ∈ trendingStats l now delta := by
      refine mem_trendingSorted l now delta x.2 ?_
      have := List.mem_map_of_mem Prod.snd hx
      rwa [List.enum_map_snd] at this
    have hys : y.2 ∈ trendingStats l now delta := by
      refine mem_trendingSorted l now delta y.2 ?_
      have := List.mem_map_of_mem Prod.snd hy
      rwa [List.enum_map_snd] at this
    have hxf := (trendingStats_fields l now delta x.2 hxs).1
    have hyf := (trendingStats_fields l now delta y.2 hys).1
    show interactionCount (windowFilter l now delta) y.2.product ≤
      interactionCount (windowFilter l now delta) x.2.product
    rw [← hxf, ← hyf]
    exact hr
  · intro p hp hnot row hrow
    have hmapprod : (calculate_trending l now delta w).map TrendingEntry.product =
        (trendingSorted l now delta).map TrendStats.product := by
      simp only [calculate_trending, List.map_map]
      show (trendingSorted l now delta).enum.map (TrendStats.product ∘ Prod.snd) = _
      rw [← List.map_map, List.enum_map_snd]
    have hsp : statOf l now delta p ∈ trendingStats l now delta :=
      List.mem_map_of_mem _ hp
    have hsorted_mem : statOf l now delta p ∈ List.insertionSort
        (fun a b : TrendStats => b.interaction_count ≤ a.interaction_count)
        (trendingStats l now delta) :=
      (List.mem_insertionSort _).mpr hsp
    rw [← List.take_append_drop 50 (List.insertionSort
      (fun a b : TrendStats => b.interaction_count ≤ a.interaction_count)
      (trendingStats l now delta))] at hsorted_mem
    rcases List.mem_append.mp hsorted_mem with hin | hdrop
    · refine absurd ?_ hnot
      rw [hmapprod]
      exact List.mem_map_of_mem TrendStats.product hin
    · have hpw : ((trendingSorted l now delta) ++ (List.insertionSort
          (fun a b : TrendStats => b.interaction_count ≤ a.interaction_count)
          (trendingStats l now delta)).drop 50).Pairwise
            (fun a b => b.interaction_count ≤ a.interaction_count) := by
        show ((List.insertionSort
          (fun a b : TrendStats => b.interaction_count ≤ a.interaction_count)
          (trendingStats l now delta)).take 50 ++ _).Pairwise _
        rw [List.take_append_drop]
        exact hsorted
      obtain ⟨s2, hs2mem, hprodeq⟩ : ∃ s2 ∈ trendingSorted l now delta,
          row.product = s2.product := by
        simp only [calculate_trending, List.mem_map] at hrow
        obtain ⟨ia, hia, rfl⟩ := hrow
        refine ⟨ia.2, ?_, rfl⟩
        have := List.mem_map_of_mem Prod.snd hia
        rwa [List.enum_map_snd] at this
      have hrel := (List.pairwise_append.mp hpw).2.2 s2 hs2mem _ hdrop
      have hs2f := (trendingStats_fields l now delta s2
        (mem_trendingSorted l now delta s2 hs2mem)).1
      rw [hprodeq, ← hs2f]
      exact hrel

/-- Witness for C2 amended on `demoTrendInput`: the first stored row has rank
1. -/
theorem trending_rank_dense_top50_witness :
    ((calculate_trending demoTrendInput 100 100 "24h").get
      ⟨0, by rw [calculate_trending_demo_eval]; decide⟩).rank = 0 + 1 :=
  (trending_rank_dense_top50 demoTrendInput 100 100 "24h").1 0
    (by rw [calculate_trending_demo_eval]; decide)

theorem combinerWeight_pos (n : String) : 0 < combinerWeight n := by
  unfold combinerWeight
  split
  · norm_num
  · split
    · norm_num
    · split <;> norm_num

theorem combined_foldl :
    ∀ (l : List (String × ℚ)) (x y : ℚ),
      l.foldl (fun p e =>
        (p.1 + e.2 * combinerWeight e.1, p.2 + combinerWeight e.1)) (x, y) =
        (x + weightedSum l, y + sumWeights l)
  | [], x, y => by simp [weightedSum, sumWeights]
  | e :: l, x, y => by
    simp only [List.foldl_cons]
    rw [combined_foldl l]
    simp only [weightedSum, sumWeights, List.map_cons, List.sum_cons,
      Prod.mk.injEq]
    constructor <;> ring

theorem combinedScore_eq (scores : List (String × ℚ)) :
    combinedScore scores =
      if 0 < sumWeights scores then weightedSum scores / sumWeights scores
      else weightedSum scores := by
  simp only [combinedScore, combined_foldl, zero_add]

theorem sumWeights_nonneg (scores : List (String × ℚ)) :
    0 ≤ sumWeights scores := by
  refine List.sum_nonneg ?_
  intro x hx
  obtain ⟨e, -, rfl⟩ := List.mem_map.mp hx
  exact (combinerWeight_pos e.1).le

theorem sumWeights_pos (scores : List (String × ℚ)) (h : scores ≠ []) :
    0 < sumWeights scores := by
  cases scores with
  | nil => exact absurd rfl h
  | cons e t =>
    have ht : 0 ≤ sumWeights t := sumWeights_nonneg t
    have he : 0 < combinerWeight e.1 := combinerWeight_pos e.1
    simp only [sumWeights, List.map_cons, List.sum_cons]
    have : (0 : ℚ) < combinerWeight e.1 + sumWeights t := by
      calc (0 : ℚ) < combinerWeight e.1 := he
        _ ≤ combinerWeight e.1 + sumWeights t := le_add_of_nonneg_right ht
    simpa [sumWeights] using this

theorem combinedScore_single (n : String) (s : ℚ) :
    combinedScore [(n, s)] = s := by
  have hpos : 0 < sumWeights [(n, s)] := sumWeights_pos _ (by simp)
  rw [combinedScore_eq, if_pos hpos]
  have hne : sumWeights [(n, s)] ≠ 0 := ne_of_gt hpos
  have hws : weightedSum [(n, s)] = s * sumWeights [(n, s)] := by
    simp [weightedSum, sumWeights]
  rw [hws, mul_div_assoc, div_self hne, mul_one]

theorem setScore_ne_nil (s : List (String × ℚ)) (n : String) (v : ℚ) :
    setScore s n v ≠ [] := by
  cases s with
  | nil => simp [setScore]
  | cons e t =>
    by_cases h : (e :: t).any (fun x => x.1 = n)
    · simp [setScore, h]
    · simp [setScore, h]

theorem scores_ne_nil_addCandidate (acc : List CandAccum) (n : String)
    (c : Candidate) (h : ∀ a ∈ acc, a.scores ≠ []) :
    ∀ a ∈ addCandidate acc n c, a.scores ≠ [] := by
  intro a ha
  unfold addCandidate at ha
  by_cases hany : acc.any (fun a => a.product = c.product) = true
  · rw [if_pos hany] at ha
    obtain ⟨a0, ha0, rfl⟩ := List.mem_map.mp ha
    by_cases hp : a0.product = c.product
    · simp only [if_pos hp]
      exact setScore_ne_nil _ _ _
    · simp only [if_neg hp]
      exact h a0 ha0
  · rw [if_neg hany] at ha
    rcases List.mem_append.mp ha with hm | hm
    · exact h a hm
    · rw [List.mem_singleton.mp hm]
      simp

theorem scores_ne_nil_foldl (n : String) :
    ∀ (cands : List Candidate) (acc : List CandAccum),
      (∀ a ∈ acc, a.scores ≠ []) →
      ∀ a ∈ cands.foldl (fun acc2 c => addCandidate acc2 n c) acc,
        a.scores ≠ []
  | [], acc, h => by simpa using h
  | c :: cands, acc, h => by
    simp only [List.foldl_cons]
    exact scores_ne_nil_foldl n cands _ (scores_ne_nil_addCandidate acc n c h)

theorem accumulate_scores_ne_nil_aux :
    ∀ (outputs : List (String × List Candidate)) (acc : List CandAccum),
      (∀ a ∈ acc, a.scores ≠ []) →
      ∀ a ∈ outputs.foldl
        (fun acc nr => nr.2.foldl (fun acc2 c => addCandidate acc2 nr.1 c) acc)
        acc,
        a.scores ≠ []
  | [], acc, h => by simpa using h
  | nr :: outputs, acc, h => by
    simp only [List.foldl_cons]
    exact accumulate_scores_ne_nil_aux outputs _
      (scores_ne_nil_foldl nr.1 nr.2 acc h)

theorem accumulate_scores_ne_nil (outputs : List (String × List Candidate)) :
    ∀ a ∈ accumulate outputs, a.scores ≠ [] :=
  accumulate_scores_ne_nil_aux outputs [] (by simp)

/-- Concrete evaluation of the combiner on `demoEngineOutputs`. -/
theorem hybrid_demo_eval :
    hybrid_get_recommendations demoEngineOutputs 10 =
      [{ product := 8, score := 9/10, rank := 1, explanation := "Similar users" },
       { product := 7, score := 1/2, rank := 2, explanation := "Popular" }] := by
  simp [hybrid_get_recommendations, hybridCombine, accumulate, addCandidate,
    setScore, combinedScore, combineExplanations, dedupFirst, combinerWeight,
    demoEngineOutputs, List.insertionSort, List.orderedInsert, List.take,
    List.enum, List.enumFrom]
  norm_num
  simp [dedupFirst]

/-- C3: every combiner output row's score is the weighted average of the
contributing engines' scores — `score · Σ weights = Σ (score·weight)` over the
product's contributing engines, with weights collaborative = 2/5,
content = 7/20, popularity = 1/4 and 1/10 for any other engine name, and the
weight sum positive (never a division by zero); a product contributed only by
`popularity` scores exactly the popularity score; the output is sorted by
combined score descending with dense ranks starting at 1. -/
theorem hybrid_combiner_spec (outputs : List (String × List Candidate))
    (m : Nat) :
    (∀ rec ∈ hybrid_get_recommendations outputs m,
      ∃ a ∈ accumulate outputs, rec.product = a.product ∧
        rec.score = combinedScore a.scores ∧
        0 < sumWeights a.scores ∧
        rec.score * sumWeights a.scores = weightedSum a.scores ∧
        (∀ s : ℚ, a.scores = [("popularity", s)] → rec.score = s)) ∧
    (hybrid_get_recommendations outputs m).Pairwise
      (fun x y => y.score ≤ x.score) ∧
    (∀ i (h : i < (hybrid_get_recommendations outputs m).length),
      ((hybrid_get_recommendations outputs m).get ⟨i, h⟩).rank = i + 1) := by
  haveI hTot : IsTotal (CandAccum × ℚ) (fun x y => y.2 ≤ x.2) :=
    ⟨fun a b => le_total b.2 a.2⟩
  haveI hTrans : IsTrans (CandAccum × ℚ) (fun x y => y.2 ≤ x.2) :=
    ⟨fun _ _ _ hab hbc => le_trans hbc hab⟩
  refine ⟨?_, ?_, ?_⟩
  · intro rec hrec
    simp only [hybrid_get_recommendations, hybridCombine, List.mem_map] at hrec
    obtain ⟨ia, hia, rfl⟩ := hrec
    obtain ⟨i, p⟩ := ia
    have hmem : p ∈ (List.insertionSort (fun x y : CandAccum × ℚ => y.2 ≤ x.2)
        ((accumulate outputs).map (fun a => (a, combinedScore a.scores)))).take
          m := by
      have := List.mem_map_of_mem Prod.snd hia
      rwa [List.enum_map_snd] at this
    have hfin : p ∈ (accumulate outputs).map
        (fun a => (a, combinedScore a.scores)) :=
      (List.mem_insertionSort _).mp ((List.take_sublist m _).subset hmem)
    obtain ⟨a, ha, hae⟩ := List.mem_map.mp hfin
    subst hae
    have hpos : 0 < sumWeights a.scores :=
      sumWeights_pos _ (accumulate_scores_ne_nil outputs a ha)
    refine ⟨a, ha, rfl, rfl, hpos, ?_, ?_⟩
    · show combinedScore a.scores * sumWeights a.scores = weightedSum a.scores
      rw [combinedScore_eq, if_pos hpos]
      exact div_mul_cancel₀ _ (ne_of_gt hpos)
    · intro s hs
      show combinedScore a.scores = s
      rw [hs]
      exact combinedScore_single _ _
  · have hsorted : (List.insertionSort (fun x y : CandAccum × ℚ => y.2 ≤ x.2)
        ((accumulate outputs).map (fun a => (a, combinedScore a.scores)))).Pairwise
          (fun x y => y.2 ≤ x.2) :=
      List.sorted_insertionSort _ _
    have hdata : ((List.insertionSort (fun x y : CandAccum × ℚ => y.2 ≤ x.2)
        ((accumulate outputs).map (fun a => (a, combinedScore a.scores)))).take
          m).Pairwise (fun x y => y.2 ≤ x.2) :=
      List.Pairwise.sublist (List.take_sublist m _) hsorted
    have henum : ((List.insertionSort (fun x y : CandAccum × ℚ => y.2 ≤ x.2)
        ((accumulate outputs).map (fun a => (a, combinedScore a.scores)))).take
          m).enum.Pairwise
        (fun x y : Nat × (CandAccum × ℚ) => y.2.2 ≤ x.2.2) := by
      have hmapped : (((List.insertionSort
          (fun x y : CandAccum × ℚ => y.2 ≤ x.2)
          ((accumulate outputs).map (fun a => (a, combinedScore a.scores)))).take
            m).enum.map Prod.snd).Pairwise (fun x y : CandAccum × ℚ => y.2 ≤ x.2) := by
        rw [List.enum_map_snd]
        exact hdata
      exact List.pairwise_map.mp hmapped
    simp only [hybrid_get_recommendations, hybridCombine]
    exact List.pairwise_map.mpr (henum.imp (fun h => h))
  · intro i h
    simp [hybrid_get_recommendations, hybridCombine, List.getElem_enum]

/-- Witness for C3 at `demoEngineOutputs`: the rank-1 output row (product 8,
score 9/10, contributed only by `collaborative`) satisfies the weighted-average
characterisation. -/
theorem hybrid_combiner_spec_witness :
    ∃ a ∈ accumulate demoEngineOutputs,
      ({ product := 8, score := 9/10, rank := 1, explanation := "Similar users" }
        : HybridRec).product = a.product ∧
      ({ product := 8, score := 9/10, rank := 1, explanation := "Similar users" }
        : HybridRec).score = combinedScore a.scores ∧
      0 < sumWeights a.scores ∧
      ({ product := 8, score := 9/10, rank := 1, explanation := "Similar users" }
        : HybridRec).score * sumWeights a.scores = weightedSum a.scores ∧
      (∀ s : ℚ, a.scores = [("popularity", s)] →
        ({ product := 8, score := 9/10, rank := 1, explanation := "Similar users" }
          : HybridRec).score = s) :=
  (hybrid_combiner_spec demoEngineOutputs 10).1 _
    (by rw [hybrid_demo_eval]; exact List.mem_cons_self _ _)

theorem purchaseFrequencyLabel_spec (tp : Nat) :
    (10 < tp → purchaseFrequencyLabel tp = "frequent") ∧
    (tp ≤ 10 → 3 < tp → purchaseFrequencyLabel tp = "occasional") ∧
    (tp ≤ 3 → purchaseFrequencyLabel tp = "rare") := by
  unfold purchaseFrequencyLabel
  refine ⟨fun h => if_pos h, fun h1 h2 => ?_, fun h => ?_⟩
  · rw [if_neg (by omega), if_pos h2]
  · rw [if_neg (by omega), if_neg (by omega)]

theorem browsingPatternLabel_spec (ti tv tp : Nat) :
    ((ti : ℚ) * (4/5) < (tv : ℚ) → browsingPatternLabel ti tv tp = "explorer") ∧
    (¬ ((ti : ℚ) * (4/5) < (tv : ℚ)) →
      (1/10 : ℚ) < (tp : ℚ) / ((max tv 1 : Nat) : ℚ) →
      browsingPatternLabel ti tv tp = "focused") ∧
    (¬ ((ti : ℚ) * (4/5) < (tv : ℚ)) →
      ¬ ((1/10 : ℚ) < (tp : ℚ) / ((max tv 1 : Nat) : ℚ)) →
      browsingPatternLabel ti tv tp = "browser") := by
  unfold browsingPatternLabel
  refine ⟨fun h => if_pos h, fun h1 h2 => ?_, fun h1 h2 => ?_⟩
  · rw [if_neg h1, if_pos h2]
  · rw [if_neg h1, if_neg h2]

/-- C7: the rebuilt profile's labels follow the first-matching-wins decision
chains (`frequent` / `occasional` / `rare` on total purchases and `explorer` /
`focused` / `browser` on view share and purchase-per-view rate, with the float
constants 0.8 and 0.1 as exact rationals), and on the scenario
`[view,P1],[view,P1],[purchase,P1,$50]` the profile has 3 interactions,
1 purchase, `purchase_frequency = "rare"` and `avg_order_value = 50`. -/
theorem profile_labels_scenario (inters : List Interaction)
    (products : List Product) (prev : UserBehaviorProfile) :
    (10 < (update_user_behavior_profile inters products prev).total_purchases →
      (update_user_behavior_profile inters products prev).purchase_frequency =
        "frequent") ∧
    ((update_user_behavior_profile inters products prev).total_purchases ≤ 10 →
      3 < (update_user_behavior_profile inters products prev).total_purchases →
      (update_user_behavior_profile inters products prev).purchase_frequency =
        "occasional") ∧
    ((update_user_behavior_profile inters products prev).total_purchases ≤ 3 →
      (update_user_behavior_profile inters products prev).purchase_frequency =
        "rare") ∧
    (((update_user_behavior_profile inters products prev).total_interactions : ℚ)
        * (4/5) <
        ((update_user_behavior_profile inters products prev).total_views : ℚ) →
      (update_user_behavior_profile inters products prev).browsing_pattern =
        "explorer") ∧
    (¬ (((update_user_behavior_profile inters products prev).total_interactions
          : ℚ) * (4/5) <
        ((update_user_behavior_profile inters products prev).total_views : ℚ)) →
      (1/10 : ℚ) <
        ((update_user_behavior_profile inters products prev).total_purchases : ℚ) /
        ((max (update_user_behavior_profile inters products prev).total_views 1
          : Nat) : ℚ) →
      (update_user_behavior_profile inters products prev).browsing_pattern =
        "focused") ∧
    (¬ (((update_user_behavior_profile inters products prev).total_interactions
          : ℚ) * (4/5) <
        ((update_user_behavior_profile inters products prev).total_views : ℚ)) →
      ¬ ((1/10 : ℚ) <
        ((update_user_behavior_profile inters products prev).total_purchases : ℚ) /
        ((max (update_user_behavior_profile inters products prev).total_views 1
          : Nat) : ℚ)) →
      (update_user_behavior_profile inters products prev).browsing_pattern =
        "browser") ∧
    ((update_user_behavior_profile demoProfileInput demoProducts
        {}).total_interactions = 3 ∧
      (update_user_behavior_profile demoProfileInput demoProducts
        {}).total_purchases = 1 ∧
      (update_user_behavior_profile demoProfileInput demoProducts
        {}).purchase_frequency = "rare" ∧
      (update_user_behavior_profile demoProfileInput demoProducts
        {}).avg_order_value = 50) := by
  have hpf : (update_user_behavior_profile inters products prev).purchase_frequency
      = purchaseFrequencyLabel
        (update_user_behavior_profile inters products prev).total_purchases := rfl
  have hbp : (update_user_behavior_profile inters products prev).browsing_pattern
      = browsingPatternLabel
        (update_user_behavior_profile inters products prev).total_interactions
        (update_user_behavior_profile inters products prev).total_views
        (update_user_behavior_profile inters products prev).total_purchases := rfl
  refine ⟨?_, ?_, ?_, ?_, ?_, ?_, ?_, ?_, ?_, ?_⟩
  · intro h
    rw [hpf]
    exact (purchaseFrequencyLabel_spec _).1 h
  · intro h1 h2
    rw [hpf]
    exact (purchaseFrequencyLabel_spec _).2.1 h1 h2
  · intro h
    rw [hpf]
    exact (purchaseFrequencyLabel_spec _).2.2 h
  · intro h
    rw [hbp]
    exact (browsingPatternLabel_spec _ _ _).1 h
  · intro h1 h2
    rw [hbp]
    exact (browsingPatternLabel_spec _ _ _).2.1 h1 h2
  · intro h1 h2
    rw [hbp]
    exact (browsingPatternLabel_spec _ _ _).2.2 h1 h2
  · rfl
  · rfl
  · rfl
  · show (update_user_behavior_profile demoProfileInput demoProducts
      {}).avg_order_value = 50
    simp [update_user_behavior_profile, demoProfileInput, demoProducts]

/-- Witness for C7 at the scenario input: one purchase is at most 3, so the
theorem labels it `rare`. -/
theorem profile_labels_scenario_witness :
    (update_user_behavior_profile demoProfileInput demoProducts
      {}).purchase_frequency = "rare" :=
  (profile_labels_scenario demoProfileInput demoProducts {}).2.2.1 (by decide)

/-- Concrete evaluation of the code's preferred-category selection on the
11-way tie. -/
theorem preferredCategories_tie_eval :
    preferredCategories tieInput tieProducts =
      [("z", 1), ("a", 1), ("b", 1), ("c", 1), ("d", 1), ("e", 1), ("f", 1),
       ("g", 1), ("h", 1), ("i", 1)] := by
  simp [preferredCategories, categoriesOf, categoryWeight, categoryOf,
    dedupFirst, tieInput, tieProducts, List.insertionSort, List.orderedInsert,
    List.take]

/-- Concrete evaluation of the claim's (name-ascending tie-break) selection on
the same input. -/
theorem specPreferredCategories_tie_eval :
    specPreferredCategories tieInput tieProducts =
      [("a", 1), ("b", 1), ("c", 1), ("d", 1), ("e", 1), ("f", 1), ("g", 1),
       ("h", 1), ("i", 1), ("j", 1)] := by
  simp [specPreferredCategories, categoriesOf, categoryWeight, categoryOf,
    dedupFirst, tieInput, tieProducts, List.insertionSort, List.orderedInsert,
    List.take]

/-- C8 counterexample: with 11 categories all tied at summed weight 1 and
category `"z"` first in grouping order, the code keeps `"z"` and drops `"j"`,
while the claim's name-ascending tie-break would drop `"z"` — the stored top-10
differs from the claim's. -/
theorem preferred_categories_tie_counterexample :
    ("z", (1 : ℚ)) ∈
      (update_user_behavior_profile tieInput tieProducts
        {}).preferred_categories ∧
    "z" ∉ (specPreferredCategories tieInput tieProducts).map Prod.fst ∧
    (update_user_behavior_profile tieInput tieProducts {}).preferred_categories
      ≠ specPreferredCategories tieInput tieProducts := by
  have hcode : (update_user_behavior_profile tieInput tieProducts
      {}).preferred_categories = preferredCategories tieInput tieProducts := rfl
  rw [hcode, preferredCategories_tie_eval, specPreferredCategories_tie_eval]
  refine ⟨by simp, by simp, by simp⟩

/-- C8 amended: `preferred_categories` is the top 10 categories by summed
engagement weight over the user's interactions with a non-null product, with
ties broken by the underlying grouping order (first appearance), not by
category name: each kept entry carries its category's summed weight, the kept
weights are non-increasing, and every category left out has a summed weight no
larger than any kept entry's. -/
theorem preferred_categories_top10 (inters : List Interaction)
    (products : List Product) (prev : UserBehaviorProfile) :
    (update_user_behavior_profile inters products prev).preferred_categories =
      preferredCategories inters products ∧
    (preferredCategories inters products).length =
      min 10 (categoriesOf inters products).length ∧
    (∀ e ∈ preferredCategories inters products,
      e.1 ∈ categoriesOf inters products ∧
      e.2 = categoryWeight inters products e.1) ∧
    (preferredCategories inters products).Pairwise (fun x y => y.2 ≤ x.2) ∧
    (∀ c ∈ categoriesOf inters products,
      c ∉ (preferredCategories inters products).map Prod.fst →
      ∀ e ∈ preferredCategories inters products,
        categoryWeight inters products c ≤ e.2) := by
  haveI hTot : IsTotal (String × ℚ) (fun a b => b.2 ≤ a.2) :=
    ⟨fun a b => le_total b.2 a.2⟩
  haveI hTrans : IsTrans (String × ℚ) (fun a b => b.2 ≤ a.2) :=
    ⟨fun _ _ _ hab hbc => le_trans hbc hab⟩
  have hsorted : (List.insertionSort (fun a b : String × ℚ => b.2 ≤ a.2)
      ((categoriesOf inters products).map
        (fun c => (c, categoryWeight inters products c)))).Pairwise
        (fun a b => b.2 ≤ a.2) :=
    List.sorted_insertionSort _ _
  refine ⟨rfl, ?_, ?_, ?_, ?_⟩
  · simp [preferredCategories, List.length_take, List.length_insertionSort]
  · intro e he
    have hmem : e ∈ (categoriesOf inters products).map
        (fun c => (c, categoryWeight inters products c)) :=
      (List.mem_insertionSort _).mp ((List.take_sublist 10 _).subset he)
    obtain ⟨c, hc, rfl⟩ := List.mem_map.mp hmem
    exact ⟨hc, rfl⟩
  · exact List.Pairwise.sublist (List.take_sublist 10 _) hsorted
  · intro c hc hnot e he
    have hcm : (c, categoryWeight inters products c) ∈
        List.insertionSort (fun a b : String × ℚ => b.2 ≤ a.2)
          ((categoriesOf inters products).map
            (fun c => (c, categoryWeight inters products c))) :=
      (List.mem_insertionSort _).mpr (List.mem_map_of_mem _ hc)
    rw [← List.take_append_drop 10 (List.insertionSort
      (fun a b : String × ℚ => b.2 ≤ a.2)
      ((categoriesOf inters products).map
        (fun c => (c, categoryWeight inters products c))))] at hcm
    rcases List.mem_append.mp hcm with hin | hdrop
    · exact absurd (List.mem_map_of_mem Prod.fst hin) hnot
    · have hpw : ((preferredCategories inters products) ++
          (List.insertionSort (fun a b : String × ℚ => b.2 ≤ a.2)
            ((categoriesOf inters products).map
              (fun c => (c, categoryWeight inters products c)))).drop
            10).Pairwise (fun a b => b.2 ≤ a.2) := by
        show ((List.insertionSort (fun a b : String × ℚ => b.2 ≤ a.2)
          ((categoriesOf inters products).map
            (fun c => (c, categoryWeight inters products c)))).take 10 ++
          _).Pairwise _
        rw [List.take_append_drop]
        exact hsorted
      exact (List.pairwise_append.mp hpw).2.2 e he _ hdrop

/-- Witness for C8 amended on the 11-way tie: the kept entry `("z", 1)` indeed
carries category `"z"`'s summed weight. -/
theorem preferred_categories_top10_witness :
    ("z" : String) ∈ categoriesOf tieInput tieProducts ∧
    (("z", (1 : ℚ)) : String × ℚ).2 = categoryWeight tieInput tieProducts "z" :=
  (preferred_categories_top10 tieInput tieProducts {}).2.2.1 ("z", 1)
    (by rw [preferredCategories_tie_eval]; exact List.mem_cons_self _ _)

/-- C9: the collaborative generator returns the empty list — and raises no
error (it is a total function) — when no user id is given, when the user id
names no existing user, and when the resolved user has no interactions. -/
theorem collaborative_empty_cases (users : List UserRec)
    (inters : List Interaction) (max_results : Nat) :
    (collaborative_get_recommendations users inters none max_results = []) ∧
    (∀ uid : String, (∀ u ∈ users, u.user_id ≠ uid) →
      collaborative_get_recommendations users inters (some uid) max_results
        = []) ∧
    (∀ uid : String, inters.filter (fun i => i.user_id = some uid) = [] →
      collaborative_get_recommendations users inters (some uid) max_results
        = []) := by
  refine ⟨rfl, ?_, ?_⟩
  · intro uid hno
    have hf : users.find? (fun u => u.user_id = uid) = none := by
      refine List.find?_eq_none.mpr ?_
      intro u hu
      simpa using hno u hu
    simp [collaborative_get_recommendations, hf]
  · intro uid hempty
    cases hf : users.find? (fun u => u.user_id = uid) with
    | none => simp [collaborative_get_recommendations, hf]
    | some user =>
      simp [collaborative_get_recommendations, hf, hempty]

/-- Witness for C9: one known user `"alice"` with no interactions, probed with
`none`, the unknown `"bob"`, and `"alice"` herself. -/
theorem collaborative_empty_cases_witness :
    (collaborative_get_recommendations [{ uid := 1, user_id := "alice" }] []
      none 10 = []) ∧
    (collaborative_get_recommendations [{ uid := 1, user_id := "alice" }] []
      (some "bob") 10 = []) ∧
    (collaborative_get_recommendations [{ uid := 1, user_id := "alice" }] []
      (some "alice") 10 = []) := by
  have h := collaborative_empty_cases [{ uid := 1, user_id := "alice" }] [] 10
  exact ⟨h.1, h.2.1 "bob" (by decide), h.2.2 "alice" rfl⟩

/-- Witness for C6 amended at `shown_count = 4`, `click_count = 1`,
`purchase_count = 2`. -/
theorem ctr_conversion_amended_witness :
    Recommendation.click_through_rate
        { shown_count := 4, click_count := 1, purchase_count := 2 } * 4 = 100 * 1 ∧
      Recommendation.conversion_rate
        { shown_count := 4, click_count := 1, purchase_count := 2 } * 4 = 100 * 2 := by
  have h := (ctr_conversion_amended
    { shown_count := 4, click_count := 1, purchase_count := 2 }).2 (by decide)
  exact ⟨by simpa using h.1, by simpa using h.2⟩

end ECRec
